import Mathlib

/-!
Shallow embedding of the hyper-watchdog Fabric chaincode
(`app/smartcontract/hyper-watchdog/chaincode-go/chaincode`: `smartcontract.go`,
`datamodels.go`, `utils.go`) of the fabric-benchmarking repository.

Modelling conventions:
* Go `float64` values are modelled as exact rationals together with an explicit
  NaN value (`FVal`); the only float operations the chaincode performs on data
  are abs/square/sum (exact on rationals), division by a length (NaN exactly
  when the length is zero, matching IEEE `0.0/0.0`), and `>` against a finite
  positive threshold (false for NaN, matching IEEE).
* Go `time.Time` is modelled as an `Int` (nanoseconds); the zero value
  `time.Time{}` is `0`; `Add` is `+`, `Before` is `<`.  Go `time.Duration` is
  an `Int` of nanoseconds.
* Go strings that carry raw data (JSON documents, struct byte content) are
  modelled as `List Nat` of byte values; API-level identifiers stay `String`.
* Go errors are strings built with `fmt.Errorf`; each distinct error site is
  modelled as a distinct constructor of `CCErr` (message wrapping such as
  `"unable to apply policy: %s"` is not modelled, only the error kind).
* Fabric's stub is modelled by `Ledger`: the world state as an association
  list (range scans iterate it in list order) plus a per-key history.
  `PutState`/`DelState`/`GetState` are `putState`/`delState`/`getState`.
* `time.Now()` observations are modelled as explicit inputs (`nowSec` for
  `examplePolicyLogic`'s parity check, `now` for `GetExpiredChunks`'s
  future-date guard); `time.Parse` of the RFC3339 cutoff is modelled by
  taking the parsed instant as an explicit `Int` input.
-/

set_option maxRecDepth 100000

namespace HyperWatchdog

/-- Go float64 modelled as an exact rational or NaN. -/
inductive FVal where
  | nan : FVal
  | fin : ℚ → FVal
deriving DecidableEq

/-- Go `v > t` comparison of a float64 `v` against a finite threshold `t`:
NaN compares false against everything. -/
def FVal.gtQ : FVal → ℚ → Bool
  | .nan, _ => false
  | .fin x, t => decide (t < x)

/-- `computeSignalEnergy` (datamodels.go): sum of `math.Pow(math.Abs(val), 2)`
over the samples, starting from 0. -/
def computeSignalEnergy (xs : List ℚ) : ℚ :=
  xs.foldl (fun energy val => energy + |val| ^ 2) 0

/-- `computeSignalMeanEnergy` (datamodels.go): `computeSignalEnergy(in) /
float64(len(in))`.  For an empty list this is IEEE `0.0/0.0 = NaN`. -/
def computeSignalMeanEnergy (xs : List ℚ) : FVal :=
  if xs.length = 0 then FVal.nan
  else FVal.fin (computeSignalEnergy xs / (xs.length : ℚ))

/-- `SensorData` (datamodels.go): three per-axis sample sequences. -/
structure SensorData where
  X : List ℚ
  Y : List ℚ
  Z : List ℚ
deriving DecidableEq

/-- `ChunkData` (datamodels.go): an id (Go string, modelled as raw bytes)
and six sensors. -/
structure ChunkData where
  Id : List Nat
  Sensor0 : SensorData
  Sensor1 : SensorData
  Sensor2 : SensorData
  Sensor3 : SensorData
  Sensor4 : SensorData
  Sensor5 : SensorData
deriving DecidableEq

/-- The Go zero value of `SensorData` (nil slices). -/
def zeroSensorData : SensorData := ⟨[], [], []⟩

/-- The Go zero value of `ChunkData`. -/
def zeroChunkData : ChunkData :=
  ⟨[], zeroSensorData, zeroSensorData, zeroSensorData,
    zeroSensorData, zeroSensorData, zeroSensorData⟩

/-- Distinct error sites of the chaincode, one constructor per
`fmt.Errorf` message kind. -/
inductive CCErr where
  | AssetNotFound : String → CCErr
  | AssetAlreadyExists : String → CCErr
  | IdMismatch : CCErr
  | DecodeError : CCErr
  | IntegrityMismatch : CCErr
  | PolicyNotFound : String → CCErr
  | PolicyNotApplied : CCErr
  | NoChange : CCErr
  | EmptyHistory : CCErr
  | SizeMismatch : CCErr
  | FutureDate : CCErr
  | ExpiryDateNotComputed : CCErr
  | ExpiryDateNotReached : CCErr
deriving DecidableEq

/-- `Threshold` (datamodels.go). -/
structure Threshold where
  X : ℚ
  Y : ℚ
  Z : ℚ

/-- The threshold constants of `energyPolicyLogic`, read exactly from their
decimal literals: X=1.8191607053598602e-06, Y=1.2442575637320148e-06,
Z=1.0956301130461567e-06. -/
def energyThreshold : Threshold :=
  ⟨(18191607053598602 : ℚ) / 10 ^ 22,
   (12442575637320148 : ℚ) / 10 ^ 22,
   (10956301130461567 : ℚ) / 10 ^ 22⟩

/-- `time.ParseDuration "31800ms"` in nanoseconds (`defaultExpiryTimeString`). -/
def defaultExpiryDuration : Int := 31800000000

/-- `time.ParseDuration "127200ms"` in nanoseconds (`thrExpiryTimeString`). -/
def thrExpiryDuration : Int := 127200000000

/-- The 18-entry `energyArray` of `energyPolicyLogic`, in assignment order:
sensor 0..5, axes X, Y, Z. -/
def energyArray (d : ChunkData) : List FVal :=
  [computeSignalMeanEnergy d.Sensor0.X,
   computeSignalMeanEnergy d.Sensor0.Y,
   computeSignalMeanEnergy d.Sensor0.Z,
   computeSignalMeanEnergy d.Sensor1.X,
   computeSignalMeanEnergy d.Sensor1.Y,
   computeSignalMeanEnergy d.Sensor1.Z,
   computeSignalMeanEnergy d.Sensor2.X,
   computeSignalMeanEnergy d.Sensor2.Y,
   computeSignalMeanEnergy d.Sensor2.Z,
   computeSignalMeanEnergy d.Sensor3.X,
   computeSignalMeanEnergy d.Sensor3.Y,
   computeSignalMeanEnergy d.Sensor3.Z,
   computeSignalMeanEnergy d.Sensor4.X,
   computeSignalMeanEnergy d.Sensor4.Y,
   computeSignalMeanEnergy d.Sensor4.Z,
   computeSignalMeanEnergy d.Sensor5.X,
   computeSignalMeanEnergy d.Sensor5.Y,
   computeSignalMeanEnergy d.Sensor5.Z]

/-- The per-iteration threshold test of `energyPolicyLogic`'s loop, with `j`
the cyclic axis counter (0 = X, 1 = Y, 2 = Z). -/
def exceedsAxis (thr : Threshold) (val : FVal) (j : Nat) : Bool :=
  (decide (j = 0) && val.gtQ thr.X) ||
  (decide (j = 1) && val.gtQ thr.Y) ||
  (decide (j = 2) && val.gtQ thr.Z)

/-- The scanning loop of `energyPolicyLogic`: walks the energy array with the
cyclic counter `j` (reset to 0 after 2), latching `flag` (the switch of
`expiryTimeString` to the long duration) once any test fires. -/
def energyScan (thr : Threshold) : List FVal → Nat → Bool → Bool
  | [], _, flag => flag
  | val :: rest, j, flag =>
    let flag := if exceedsAxis thr val j then true else flag
    let j := j + 1
    let j := if j = 3 then 0 else j
    energyScan thr rest j flag

/-- `energyPolicyLogic` (datamodels.go), the logic of policy
`signal_energy_policy_v1`: computes the 18 mean energies, compares each
against its axis threshold cycling X, Y, Z; returns the long duration if any
test fired, and the short one otherwise.  `time.ParseDuration` of the two
constant strings always succeeds, so no error is reachable. -/
def energyPolicyLogic (d : ChunkData) : Except CCErr Int :=
  .ok (if energyScan energyThreshold (energyArray d) 0 false
       then thrExpiryDuration else defaultExpiryDuration)

/-- `examplePolicyLogic` (datamodels.go): 24h normally, 48h when the current
second is even; the observed `time.Now().Second()` is the input. -/
def examplePolicyLogic (nowSec : Nat) : Except CCErr Int :=
  .ok (if nowSec % 2 = 0 then 172800000000000 else 86400000000000)

/-- The two entries of the `AvailablePolicies` map. -/
inductive PolicyRef where
  | examplePolicy : PolicyRef
  | energyPolicy : PolicyRef
deriving DecidableEq

/-- `getPolicy` (datamodels.go): lookup in `AvailablePolicies`. -/
def getPolicy (id : String) : Except CCErr PolicyRef :=
  if id = "example_policy_v1" then .ok .examplePolicy
  else if id = "signal_energy_policy_v1" then .ok .energyPolicy
  else .error (.PolicyNotFound id)

/-- `ChunkData.applyPolicyById` (datamodels.go): resolve the policy and run
its `Logic` on the chunk data. -/
def ChunkData.applyPolicyById (d : ChunkData) (policyId : String)
    (nowSec : Nat) : Except CCErr Int :=
  match getPolicy policyId with
  | .error e => .error e
  | .ok .examplePolicy => examplePolicyLogic nowSec
  | .ok .energyPolicy => energyPolicyLogic d

/-! ### Base64 decoding (Go `encoding/base64`, `StdEncoding` via `NewDecoder`) -/

/-- Value of one standard-alphabet base64 character. -/
def b64Val (c : Nat) : Option Nat :=
  if 65 ≤ c ∧ c ≤ 90 then some (c - 65)
  else if 97 ≤ c ∧ c ≤ 122 then some (c - 97 + 26)
  else if 48 ≤ c ∧ c ≤ 57 then some (c - 48 + 52)
  else if c = 43 then some 62
  else if c = 47 then some 63
  else none

/-- Decode base64 quartets to bytes.  Padding (`=`, byte 61) is only valid in
the final quartet; a trailing group shorter than 4 is corrupt input. -/
def b64Quads : List Nat → Option (List Nat)
  | [] => some []
  | c1 :: c2 :: c3 :: c4 :: rest =>
    match b64Val c1, b64Val c2 with
    | some v1, some v2 =>
      if c3 = 61 then
        if c4 = 61 ∧ rest = [] then some [v1 * 4 + v2 / 16]
        else none
      else
        match b64Val c3 with
        | some v3 =>
          if c4 = 61 then
            if rest = [] then some [v1 * 4 + v2 / 16, (v2 % 16) * 16 + v3 / 4]
            else none
          else
            match b64Val c4 with
            | some v4 =>
              (b64Quads rest).map
                (fun bs => (v1 * 4 + v2 / 16) :: ((v2 % 16) * 16 + v3 / 4) ::
                           ((v3 % 4) * 64 + v4) :: bs)
            | none => none
        | none => none
    | _, _ => none
  | _ => none

/-- Go's streaming base64 decoder ignores `\r` (13) and `\n` (10) anywhere in
its input before grouping into quartets. -/
def base64Decode (cs : List Nat) : Option (List Nat) :=
  b64Quads (cs.filter (fun c => decide (c ≠ 10) && decide (c ≠ 13)))

/-- A Lean `String` as the byte list of its characters (the chaincode's
base64 and identifier inputs are ASCII, where code points and UTF-8 bytes
coincide). -/
def strBytes (s : String) : List Nat := s.toList.map Char.toNat

/-! ### JSON parsing (Go `encoding/json` decoding into the two structs) -/

/-- A parsed JSON value; strings are raw byte lists, numbers exact rationals
(every float64 literal is a terminating decimal). -/
inductive JVal where
  | null : JVal
  | bool : Bool → JVal
  | num : ℚ → JVal
  | str : List Nat → JVal
  | arr : List JVal → JVal
  | obj : List (List Nat × JVal) → JVal

/-- JSON whitespace: space, tab, newline, carriage return. -/
def isJsonWs (c : Nat) : Bool :=
  decide (c = 32) || decide (c = 9) || decide (c = 10) || decide (c = 13)

/-- Drop leading JSON whitespace. -/
def skipWs : List Nat → List Nat
  | [] => []
  | c :: rest => if isJsonWs c then skipWs rest else c :: rest

/-- Value of a hex digit byte. -/
def hexVal (c : Nat) : Option Nat :=
  if 48 ≤ c ∧ c ≤ 57 then some (c - 48)
  else if 97 ≤ c ∧ c ≤ 102 then some (c - 97 + 10)
  else if 65 ≤ c ∧ c ≤ 70 then some (c - 65 + 10)
  else none

/-- UTF-8 encoding of a code point (1–3 bytes; supplementary planes and
surrogate pairs are not modelled, the chaincode's data is ASCII). -/
def utf8Enc (n : Nat) : List Nat :=
  if n < 128 then [n]
  else if n < 2048 then [192 + n / 64, 128 + n % 64]
  else [224 + n / 4096, 128 + n / 64 % 64, 128 + n % 64]

/-- Parse the body of a JSON string after the opening quote; returns the
decoded bytes and the rest of the input. -/
def parseStrBody : Nat → List Nat → Option (List Nat × List Nat)
  | 0, _ => none
  | _, [] => none
  | fuel + 1, c :: rest =>
    if c = 34 then some ([], rest)
    else if c = 92 then
      match rest with
      | [] => none
      | e :: rest2 =>
        if e = 117 then
          match rest2 with
          | h1 :: h2 :: h3 :: h4 :: rest3 =>
            match hexVal h1, hexVal h2, hexVal h3, hexVal h4 with
            | some a, some b, some c, some d =>
              (parseStrBody fuel rest3).map
                (fun p => (utf8Enc (a * 4096 + b * 256 + c * 16 + d) ++ p.1, p.2))
            | _, _, _, _ => none
          | _ => none
        else
          let dec : Option Nat :=
            if e = 34 then some 34 else if e = 92 then some 92
            else if e = 47 then some 47 else if e = 98 then some 8
            else if e = 102 then some 12 else if e = 110 then some 10
            else if e = 114 then some 13 else if e = 116 then some 9
            else none
          match dec with
          | some b => (parseStrBody fuel rest2).map (fun p => (b :: p.1, p.2))
          | none => none
    else (parseStrBody fuel rest).map (fun p => (c :: p.1, p.2))

/-- Take a maximal run of decimal digit bytes. -/
def takeDigits : List Nat → (List Nat × List Nat)
  | [] => ([], [])
  | c :: rest =>
    if 48 ≤ c ∧ c ≤ 57 then
      let p := takeDigits rest
      (c :: p.1, p.2)
    else ([], c :: rest)

/-- Decimal digit bytes to a natural number. -/
def digitsVal (ds : List Nat) : Nat := ds.foldl (fun acc d => acc * 10 + (d - 48)) 0

/-- Parse a JSON number to an exact rational. -/
def parseNum (s : List Nat) : Option (ℚ × List Nat) :=
  let (neg, s1) := match s with
    | 45 :: rest => (true, rest)
    | _ => (false, s)
  let (ip, s2) := takeDigits s1
  if ip = [] then none
  else
    let (fp, s3) := match s2 with
      | 46 :: rest =>
        let p := takeDigits rest
        (p.1, p.2)
      | _ => ([], s2)
    if s2 ≠ s3 ∧ fp = [] then none
    else
      let parseExp : Option (Int × List Nat) := match s3 with
        | e :: rest =>
          if e = 101 ∨ e = 69 then
            match rest with
            | 45 :: rest2 =>
              let p := takeDigits rest2
              if p.1 = [] then none else some (-(digitsVal p.1 : Int), p.2)
            | 43 :: rest2 =>
              let p := takeDigits rest2
              if p.1 = [] then none else some ((digitsVal p.1 : Int), p.2)
            | _ =>
              let p := takeDigits rest
              if p.1 = [] then none else some ((digitsVal p.1 : Int), p.2)
          else some (0, e :: rest)
        | [] => some (0, [])
      match parseExp with
      | none => none
      | some (ex, s4) =>
        let mant : ℚ := (digitsVal (ip ++ fp) : ℚ)
        let scaled : ℚ := mant * (10 : ℚ) ^ (ex - (fp.length : Int))
        some (if neg then -scaled else scaled, s4)

mutual

/-- Parse one JSON value (recursive descent with fuel). -/
def parseVal : Nat → List Nat → Option (JVal × List Nat)
  | 0, _ => none
  | fuel + 1, s =>
    match skipWs s with
    | [] => none
    | c :: rest =>
      if c = 34 then
        (parseStrBody (rest.length + 1) rest).map (fun p => (JVal.str p.1, p.2))
      else if c = 91 then
        match skipWs rest with
        | 93 :: r => some (JVal.arr [], r)
        | s1 => (parseArrItems fuel s1).map (fun p => (JVal.arr p.1, p.2))
      else if c = 123 then
        match skipWs rest with
        | 125 :: r => some (JVal.obj [], r)
        | s1 => (parseObjItems fuel s1).map (fun p => (JVal.obj p.1, p.2))
      else if c = 116 then
        match rest with
        | 114 :: 117 :: 101 :: r => some (JVal.bool true, r)
        | _ => none
      else if c = 102 then
        match rest with
        | 97 :: 108 :: 115 :: 101 :: r => some (JVal.bool false, r)
        | _ => none
      else if c = 110 then
        match rest with
        | 117 :: 108 :: 108 :: r => some (JVal.null, r)
        | _ => none
      else
        (parseNum (c :: rest)).map (fun p => (JVal.num p.1, p.2))

/-- Parse the items of a non-empty JSON array (after the opening bracket). -/
def parseArrItems : Nat → List Nat → Option (List JVal × List Nat)
  | 0, _ => none
  | fuel + 1, s =>
    match parseVal fuel s with
    | none => none
    | some (v, r) =>
      match skipWs r with
      | 44 :: r2 => (parseArrItems fuel r2).map (fun p => (v :: p.1, p.2))
      | 93 :: r2 => some ([v], r2)
      | _ => none

/-- Parse the members of a non-empty JSON object (after the opening brace). -/
def parseObjItems : Nat → List Nat → Option (List (List Nat × JVal) × List Nat)
  | 0, _ => none
  | fuel + 1, s =>
    match skipWs s with
    | 34 :: rest =>
      match parseStrBody (rest.length + 1) rest with
      | none => none
      | some (key, r) =>
        match skipWs r with
        | 58 :: r2 =>
          match parseVal fuel r2 with
          | none => none
          | some (v, r3) =>
            match skipWs r3 with
            | 44 :: r4 => (parseObjItems fuel r4).map (fun p => ((key, v) :: p.1, p.2))
            | 125 :: r4 => some ([(key, v)], r4)
            | _ => none
        | _ => none
    | _ => none

end

/-- Lower-case the ASCII letters of a byte list (Go's json matches struct
field tags case-insensitively when no exact match exists). -/
def lowerBytes (s : List Nat) : List Nat :=
  s.map (fun c => if 65 ≤ c ∧ c ≤ 90 then c + 32 else c)

/-- Key/tag match: exact, or ASCII case-insensitive. -/
def keyMatches (k tag : List Nat) : Bool :=
  decide (k = tag) || decide (lowerBytes k = lowerBytes tag)

/-- Decode one JSON value into a float64 slice element; `null` is decoded as
the zero value, anything but a number is a type error. -/
def qOfJVal : JVal → Option ℚ
  | .num q => some q
  | .null => some 0
  | _ => none

/-- Decode a JSON value into a `[]float64` field: an array of numbers, or
`null` as a no-op keeping the current value. -/
def floatsOfJVal (cur : List ℚ) : JVal → Option (List ℚ)
  | .null => some cur
  | .arr xs => xs.mapM qOfJVal
  | _ => none

/-- Fold one object member into a `SensorData` under Go unmarshalling rules:
tags `x`, `y`, `z`; unknown keys ignored. -/
def sensorSetField (s : SensorData) (key : List Nat) (v : JVal) :
    Option SensorData :=
  if keyMatches key [120] then (floatsOfJVal s.X v).map (fun l => { s with X := l })
  else if keyMatches key [121] then (floatsOfJVal s.Y v).map (fun l => { s with Y := l })
  else if keyMatches key [122] then (floatsOfJVal s.Z v).map (fun l => { s with Z := l })
  else some s

/-- Decode a JSON value into a `SensorData` field (an object, or `null` as a
no-op). -/
def sensorOfJVal (cur : SensorData) : JVal → Option SensorData
  | .null => some cur
  | .obj fs => fs.foldlM (fun s p => sensorSetField s p.1 p.2) cur
  | _ => none

/-- Fold one object member into a `ChunkData` under Go unmarshalling rules:
tags `id`, `0`..`5`; unknown keys ignored; later duplicates overwrite. -/
def chunkSetField (d : ChunkData) (key : List Nat) (v : JVal) :
    Option ChunkData :=
  if keyMatches key [105, 100] then
    match v with
    | .str s => some { d with Id := s }
    | .null => some d
    | _ => none
  else if keyMatches key [48] then (sensorOfJVal d.Sensor0 v).map (fun s => { d with Sensor0 := s })
  else if keyMatches key [49] then (sensorOfJVal d.Sensor1 v).map (fun s => { d with Sensor1 := s })
  else if keyMatches key [50] then (sensorOfJVal d.Sensor2 v).map (fun s => { d with Sensor2 := s })
  else if keyMatches key [51] then (sensorOfJVal d.Sensor3 v).map (fun s => { d with Sensor3 := s })
  else if keyMatches key [52] then (sensorOfJVal d.Sensor4 v).map (fun s => { d with Sensor4 := s })
  else if keyMatches key [53] then (sensorOfJVal d.Sensor5 v).map (fun s => { d with Sensor5 := s })
  else some d

/-- Decode a parsed JSON value into a `ChunkData`, starting from the Go zero
value (`json.Decode` into a fresh struct). -/
def chunkDataOfJVal : JVal → Option ChunkData
  | .null => some zeroChunkData
  | .obj fs => fs.foldlM (fun d p => chunkSetField d p.1 p.2) zeroChunkData
  | _ => none

/-- `base64DecodeJson` (utils.go) specialised to `ChunkData`: base64-decode
the input and JSON-decode one value from the resulting bytes (trailing bytes
after the first JSON value are ignored, as `json.Decoder.Decode` stops at the
end of the value). -/
def base64DecodeJson (enc : String) : Except CCErr ChunkData :=
  match base64Decode (strBytes enc) with
  | none => .error .DecodeError
  | some bytes =>
    match parseVal (bytes.length + 1) bytes with
    | none => .error .DecodeError
    | some (v, _) =>
      match chunkDataOfJVal v with
      | none => .error .DecodeError
      | some d => .ok d

/-! ### JSON marshalling (Go `json.Marshal` of `ChunkData`) -/

/-- Hex digit byte (lower case). -/
def hexDigit (n : Nat) : Nat := if n < 10 then 48 + n else 87 + n

/-- Go json string escaping of one byte: quote and backslash are escaped,
`\n`/`\r`/`\t` use their short escapes, other control bytes and the
HTML-sensitive `<`, `>`, `&` become `\u00XX`. -/
def escByte (c : Nat) : List Nat :=
  if c = 34 then [92, 34]
  else if c = 92 then [92, 92]
  else if c = 10 then [92, 110]
  else if c = 13 then [92, 114]
  else if c = 9 then [92, 116]
  else if c < 32 ∨ c = 60 ∨ c = 62 ∨ c = 38 then
    [92, 117, 48, 48, hexDigit (c / 16), hexDigit (c % 16)]
  else [c]

/-- A JSON string literal for raw bytes. -/
def jsonStrBytes (s : List Nat) : List Nat :=
  34 :: (s.map escByte).flatten ++ [34]

/-- Decimal digit bytes of a natural number. -/
def natBytes (n : Nat) : List Nat := strBytes (toString n)

/-- Fuelled decimal expansion of a fraction `rem / den` (float64 values are
dyadic rationals, whose expansions terminate well within the fuel). -/
def fracBytes : Nat → Nat → Nat → List Nat
  | _, _, 0 => []
  | rem, den, fuel + 1 =>
    if rem = 0 then []
    else (48 + rem * 10 / den) :: fracBytes (rem * 10 % den) den fuel

/-- Go float64 number formatting, modelled as the exact terminating decimal
of the rational (Go prints the shortest decimal that round-trips; on the
parse-then-marshal pipeline of this model the two coincide). -/
def qBytes (q : ℚ) : List Nat :=
  let sign : List Nat := if q < 0 then [45] else []
  let n : Nat := q.num.natAbs
  let den : Nat := q.den
  let ip : List Nat := natBytes (n / den)
  if n % den = 0 then sign ++ ip
  else sign ++ ip ++ 46 :: fracBytes (n % den) den 64

/-- Marshal a `[]float64`; the empty list is modelled as Go's nil slice and
marshals to `null`. -/
def floatsBytes (xs : List ℚ) : List Nat :=
  match xs with
  | [] => [110, 117, 108, 108]
  | x :: rest =>
    91 :: qBytes x ++ (rest.map (fun q => 44 :: qBytes q)).flatten ++ [93]

/-- Marshal a `SensorData` in struct field order with tags `x`, `y`, `z`. -/
def sensorBytes (s : SensorData) : List Nat :=
  123 :: (jsonStrBytes [120] ++ 58 :: floatsBytes s.X ++
  44 :: jsonStrBytes [121] ++ 58 :: floatsBytes s.Y ++
  44 :: jsonStrBytes [122] ++ 58 :: floatsBytes s.Z) ++ [125]

/-- Marshal a `ChunkData` in struct field order with tags `id`, `0`..`5`
(Go keeps struct declaration order when marshalling). -/
def chunkBytes (d : ChunkData) : List Nat :=
  123 :: (jsonStrBytes [105, 100] ++ 58 :: jsonStrBytes d.Id ++
  44 :: jsonStrBytes [48] ++ 58 :: sensorBytes d.Sensor0 ++
  44 :: jsonStrBytes [49] ++ 58 :: sensorBytes d.Sensor1 ++
  44 :: jsonStrBytes [50] ++ 58 :: sensorBytes d.Sensor2 ++
  44 :: jsonStrBytes [51] ++ 58 :: sensorBytes d.Sensor3 ++
  44 :: jsonStrBytes [52] ++ 58 :: sensorBytes d.Sensor4 ++
  44 :: jsonStrBytes [53] ++ 58 :: sensorBytes d.Sensor5) ++ [125]

/-! ### MD5 (Go `crypto/md5`, RFC 1321) over byte lists -/

/-- 2^32, the word modulus of MD5. -/
def M32 : Nat := 4294967296

/-- 32-bit addition. -/
def add32 (a b : Nat) : Nat := (a + b) % M32

/-- 32-bit complement. -/
def not32 (a : Nat) : Nat := Nat.xor a 4294967295

/-- 32-bit left rotation (argument below 2^32). -/
def rotl32 (x s : Nat) : Nat := (x * 2 ^ s) % M32 + x / 2 ^ (32 - s)

/-- The 64 MD5 sine-derived constants. -/
def md5K : List Nat :=
  [0xd76aa478, 0xe8c7b756, 0x242070db, 0xc1bdceee,
   0xf57c0faf, 0x4787c62a, 0xa8304613, 0xfd469501,
   0x698098d8, 0x8b44f7af, 0xffff5bb1, 0x895cd7be,
   0x6b901122, 0xfd987193, 0xa679438e, 0x49b40821,
   0xf61e2562, 0xc040b340, 0x265e5a51, 0xe9b6c7aa,
   0xd62f105d, 0x02441453, 0xd8a1e681, 0xe7d3fbc8,
   0x21e1cde6, 0xc33707d6, 0xf4d50d87, 0x455a14ed,
   0xa9e3e905, 0xfcefa3f8, 0x676f02d9, 0x8d2a4c8a,
   0xfffa3942, 0x8771f681, 0x6d9d6122, 0xfde5380c,
   0xa4beea44, 0x4bdecfa9, 0xf6bb4b60, 0xbebfbc70,
   0x289b7ec6, 0xeaa127fa, 0xd4ef3085, 0x04881d05,
   0xd9d4d039, 0xe6db99e5, 0x1fa27cf8, 0xc4ac5665,
   0xf4292244, 0x432aff97, 0xab9423a7, 0xfc93a039,
   0x655b59c3, 0x8f0ccc92, 0xffeff47d, 0x85845dd1,
   0x6fa87e4f, 0xfe2ce6e0, 0xa3014314, 0x4e0811a1,
   0xf7537e82, 0xbd3af235, 0x2ad7d2bb, 0xeb86d391]

/-- The 64 MD5 per-step rotation amounts. -/
def md5S : List Nat :=
  [7, 12, 17, 22, 7, 12, 17, 22, 7, 12, 17, 22, 7, 12, 17, 22,
   5, 9, 14, 20, 5, 9, 14, 20, 5, 9, 14, 20, 5, 9, 14, 20,
   4, 11, 16, 23, 4, 11, 16, 23, 4, 11, 16, 23, 4, 11, 16, 23,
   6, 10, 15, 21, 6, 10, 15, 21, 6, 10, 15, 21, 6, 10, 15, 21]

/-- MD5 round function by step index. -/
def md5F (i b c d : Nat) : Nat :=
  if i < 16 then Nat.lor (Nat.land b c) (Nat.land (not32 b) d)
  else if i < 32 then Nat.lor (Nat.land d b) (Nat.land (not32 d) c)
  else if i < 48 then Nat.xor (Nat.xor b c) d
  else Nat.xor c (Nat.lor b (not32 d))

/-- MD5 message word index by step index. -/
def md5G (i : Nat) : Nat :=
  if i < 16 then i
  else if i < 32 then (5 * i + 1) % 16
  else if i < 48 then (3 * i + 5) % 16
  else (7 * i) % 16

/-- Little-endian 32-bit word `j` of a 64-byte block. -/
def blockWord (blk : List Nat) (j : Nat) : Nat :=
  blk.getD (4 * j) 0 + blk.getD (4 * j + 1) 0 * 256 +
  blk.getD (4 * j + 2) 0 * 65536 + blk.getD (4 * j + 3) 0 * 16777216

/-- One MD5 block transformation. -/
def md5Block (st : Nat × Nat × Nat × Nat) (blk : List Nat) :
    Nat × Nat × Nat × Nat :=
  let r := (List.range 64).foldl
    (fun (s : Nat × Nat × Nat × Nat) i =>
      let a := s.1
      let b := s.2.1
      let c := s.2.2.1
      let d := s.2.2.2
      let tmp := add32 (add32 (add32 a (md5F i b c d)) (md5K.getD i 0))
        (blockWord blk (md5G i))
      (d, add32 b (rotl32 tmp (md5S.getD i 0)), b, c)) st
  (add32 st.1 r.1, add32 st.2.1 r.2.1, add32 st.2.2.1 r.2.2.1,
   add32 st.2.2.2 r.2.2.2)

/-- Split a message into consecutive 64-byte blocks (the fuel bounds the
number of blocks; one unit per block suffices since blocks are non-empty). -/
def chunksOf64 : Nat → List Nat → List (List Nat)
  | 0, _ => []
  | _, [] => []
  | fuel + 1, msg => msg.take 64 :: chunksOf64 fuel (msg.drop 64)

/-- Fold the MD5 transformation over consecutive 64-byte blocks. -/
def md5Blocks (st : Nat × Nat × Nat × Nat) (msg : List Nat) :
    Nat × Nat × Nat × Nat :=
  (chunksOf64 msg.length msg).foldl md5Block st

/-- MD5 padding: `0x80`, zeros to 56 mod 64, then the bit length as a
little-endian 64-bit integer. -/
def md5Pad (msg : List Nat) : List Nat :=
  let len := msg.length
  let k := (64 + 56 - (len + 1) % 64) % 64
  msg ++ 128 :: List.replicate k 0 ++
    (List.range 8).map (fun i => len * 8 / 2 ^ (8 * i) % 256)

/-- Little-endian bytes of a 32-bit word. -/
def le32 (n : Nat) : List Nat := [n % 256, n / 256 % 256, n / 65536 % 256, n / 16777216 % 256]

/-- Lower-case hex string of a byte list. -/
def bytesToHex (bs : List Nat) : String :=
  String.mk ((bs.map (fun b => [Char.ofNat (hexDigit (b / 16)), Char.ofNat (hexDigit (b % 256 % 16))])).flatten)

/-- `md5Hash` (utils.go): the MD5 digest of the data, formatted `%x` (the Go
function takes the data as a string; its bytes are the input here). -/
def md5Hash (data : List Nat) : String :=
  let st := md5Blocks (0x67452301, 0xefcdab89, 0x98badcfe, 0x10325476) (md5Pad data)
  bytesToHex (le32 st.1 ++ le32 st.2.1 ++ le32 st.2.2.1 ++ le32 st.2.2.2)

/-- `ChunkData.hash` (datamodels.go): serialize to JSON, then MD5. -/
def ChunkData.hash (d : ChunkData) : String := md5Hash (chunkBytes d)

/-! ### Ledger state and the smart contract transactions (smartcontract.go) -/

/-- `Asset` (smartcontract.go).  `ExpiryDate` is a `time.Time` (0 is the zero
value `time.Time{}`), `ExpiryPeriod` a `time.Duration`, both in nanoseconds. -/
structure Asset where
  AppliedPolicyId : String
  ChunkId : String
  DataHash : String
  ExpiryDate : Int
  ExpiryPeriod : Int
deriving DecidableEq

/-- `HistoryQueryResult` (smartcontract.go): one entry of
`GetHistoryForKey`; a delete entry has no record value. -/
structure HistoryEntry where
  txId : String
  timestamp : Int
  record : Option Asset
  isDelete : Bool

/-- The Fabric stub as seen by this chaincode: the world state as an
association list over which `GetStateByRange("", "")` iterates, and the
per-key committed history returned by `GetHistoryForKey`. -/
structure Ledger where
  world : List (String × Asset)
  history : String → List HistoryEntry

/-- Update of the world-state association list: replace the first binding of
the key, or append a new one. -/
def putList : List (String × Asset) → String → Asset → List (String × Asset)
  | [], id, a => [(id, a)]
  | (k, v) :: rest, id, a =>
    if k = id then (id, a) :: rest else (k, v) :: putList rest id a

/-- `GetState`: the value bound to a key, `none` when the key is absent
(Fabric returns nil for deleted or never-written keys). -/
def getState (L : Ledger) (id : String) : Option Asset :=
  (L.world.find? (fun p => p.1 = id)).map (fun p => p.2)

/-- `PutState`: write a key. -/
def putState (L : Ledger) (id : String) (a : Asset) : Ledger :=
  { L with world := putList L.world id a }

/-- `DelState`: remove a key from the world state (its history remains). -/
def delState (L : Ledger) (id : String) : Ledger :=
  { L with world := L.world.filter (fun p => decide (p.1 ≠ id)) }

/-- `assetExists` (smartcontract.go): `GetState(id) != nil` — only the live
world state is consulted, never the history. -/
def assetExists (L : Ledger) (id : String) : Bool :=
  (getState L id).isSome

/-- `readAsset` (smartcontract.go): `GetState` plus JSON unmarshal (the
marshal/unmarshal round trip of `Asset` is lossless and not modelled). -/
def readAsset (L : Ledger) (id : String) : Except CCErr Asset :=
  match getState L id with
  | none => .error (.AssetNotFound id)
  | some a => .ok a

/-- `createAsset` (smartcontract.go): fail when the id is live, else write. -/
def createAsset (L : Ledger) (a : Asset) : Except CCErr Ledger :=
  if assetExists L a.ChunkId then .error (.AssetAlreadyExists a.ChunkId)
  else .ok (putState L a.ChunkId a)

/-- `updateAsset` (smartcontract.go): the asset must carry the given id and
already exist; then overwrite. -/
def updateAsset (L : Ledger) (id : String) (a : Asset) : Except CCErr Ledger :=
  if a.ChunkId ≠ id then .error .IdMismatch
  else
    match readAsset L id with
    | .error e => .error e
    | .ok _ => .ok (putState L id a)

/-- `deleteAsset` (smartcontract.go): the asset must exist; then delete. -/
def deleteAsset (L : Ledger) (id : String) : Except CCErr Ledger :=
  if assetExists L id then .ok (delState L id)
  else .error (.AssetNotFound id)

/-- `getAssetHistory` (smartcontract.go): the committed history of a key
(iterator and unmarshal errors are not modelled). -/
def getAssetHistory (L : Ledger) (id : String) : List HistoryEntry :=
  L.history id

/-- `getAssetCreationTime` (smartcontract.go): the timestamp of the first
history entry; `EmptyHistory` when the history is empty. -/
def getAssetCreationTime (L : Ledger) (id : String) : Except CCErr Int :=
  match getAssetHistory L id with
  | [] => .error .EmptyHistory
  | e :: _ => .ok e.timestamp

/-- `computeExpiryDate` (smartcontract.go): creation time plus the period. -/
def computeExpiryDate (L : Ledger) (id : String) (expiryPeriod : Int) :
    Except CCErr Int :=
  match getAssetCreationTime L id with
  | .error e => .error e
  | .ok creationTime => .ok (creationTime + expiryPeriod)

/-- `updateAssetExpiryDate` (smartcontract.go): read, set `ExpiryDate`,
write back through `updateAsset`. -/
def updateAssetExpiryDate (L : Ledger) (id : String) (expiryDate : Int) :
    Except CCErr Ledger :=
  match readAsset L id with
  | .error e => .error e
  | .ok asset => updateAsset L id { asset with ExpiryDate := expiryDate }

/-- The outcome of a public transaction: the chaincode's return value plus
the ledger as left by the stub calls performed before returning (returning
an error does not undo writes already made to the simulated write set). -/
abbrev TxOut := Except CCErr Unit × Ledger

/-- `AddChunk` (smartcontract.go): existence check, decode, hash, create
with empty policy and zero expiry. -/
def AddChunk (L : Ledger) (chunkId chunkDataBase64 : String) : TxOut :=
  if assetExists L chunkId then (.error (.AssetAlreadyExists chunkId), L)
  else
    match base64DecodeJson chunkDataBase64 with
    | .error e => (.error e, L)
    | .ok chunkData =>
      match createAsset L
        { AppliedPolicyId := "", ChunkId := chunkId,
          DataHash := chunkData.hash, ExpiryDate := 0, ExpiryPeriod := 0 } with
      | .error e => (.error e, L)
      | .ok L2 => (.ok (), L2)

/-- `AddChunkWithPolicy` (smartcontract.go): existence check, decode, hash,
policy evaluation, create. -/
def AddChunkWithPolicy (L : Ledger) (nowSec : Nat)
    (chunkId chunkDataBase64 policyId : String) : TxOut :=
  if assetExists L chunkId then (.error (.AssetAlreadyExists chunkId), L)
  else
    match base64DecodeJson chunkDataBase64 with
    | .error e => (.error e, L)
    | .ok chunkData =>
      match chunkData.applyPolicyById policyId nowSec with
      | .error e => (.error e, L)
      | .ok chunkExpiryPeriod =>
        match createAsset L
          { AppliedPolicyId := policyId, ChunkId := chunkId,
            DataHash := chunkData.hash, ExpiryDate := 0,
            ExpiryPeriod := chunkExpiryPeriod } with
        | .error e => (.error e, L)
        | .ok L2 => (.ok (), L2)

/-- The validation loop of `AddChunkWithPolicyBatch`: for each entry in input
order, existence check, decode, hash, policy evaluation; collects the new
assets without writing anything.  The lists have equal length when called
(checked by the caller); a leftover tail is unreachable there. -/
def batchValidate (L : Ledger) (nowSec : Nat) :
    List String → List String → List String → Except CCErr (List Asset)
  | [], _, _ => .ok []
  | chunkId :: ids, chunkDataBase64 :: datas, policyId :: pols =>
    if assetExists L chunkId then .error (.AssetAlreadyExists chunkId)
    else
      match base64DecodeJson chunkDataBase64 with
      | .error e => .error e
      | .ok chunkData =>
        match chunkData.applyPolicyById policyId nowSec with
        | .error e => .error e
        | .ok chunkExpiryPeriod =>
          match batchValidate L nowSec ids datas pols with
          | .error e => .error e
          | .ok rest =>
            .ok ({ AppliedPolicyId := policyId, ChunkId := chunkId,
                   DataHash := chunkData.hash, ExpiryDate := 0,
                   ExpiryPeriod := chunkExpiryPeriod } :: rest)
  | _ :: _, _, _ => .ok []

/-- The write loop of `AddChunkWithPolicyBatch`: `createAsset` on each
validated asset in input order, stopping at the first failure (writes made
so far remain in the write set). -/
def batchWrite (L : Ledger) : List Asset → TxOut
  | [] => (.ok (), L)
  | a :: rest =>
    match createAsset L a with
    | .error e => (.error e, L)
    | .ok L2 => batchWrite L2 rest

/-- `AddChunkWithPolicyBatch` (smartcontract.go): size check, then the
all-or-nothing validation pass, then the write pass. -/
def AddChunkWithPolicyBatch (L : Ledger) (nowSec : Nat)
    (chunkId chunkDataBase64 policyId : List String) : TxOut :=
  if chunkId.length ≠ chunkDataBase64.length ∨ chunkId.length ≠ policyId.length
  then (.error .SizeMismatch, L)
  else
    match batchValidate L nowSec chunkId chunkDataBase64 policyId with
    | .error e => (.error e, L)
    | .ok newAssets => batchWrite L newAssets

/-- `ApplyPolicy` (smartcontract.go): read the asset, decode and hash the
supplied data, compare against the stored `DataHash`, evaluate the policy,
recompute the expiry date from creation time, update the asset. -/
def ApplyPolicy (L : Ledger) (nowSec : Nat)
    (chunkId chunkDataBase64 policyId : String) : TxOut :=
  match readAsset L chunkId with
  | .error e => (.error e, L)
  | .ok asset =>
    match base64DecodeJson chunkDataBase64 with
    | .error e => (.error e, L)
    | .ok chunkData =>
      if asset.DataHash ≠ chunkData.hash then (.error .IntegrityMismatch, L)
      else
        match chunkData.applyPolicyById policyId nowSec with
        | .error e => (.error e, L)
        | .ok chunkExpiryPeriod =>
          match computeExpiryDate L chunkId chunkExpiryPeriod with
          | .error e => (.error e, L)
          | .ok chunkExpiryDate =>
            match updateAsset L chunkId
              { asset with AppliedPolicyId := policyId,
                           ExpiryDate := chunkExpiryDate,
                           ExpiryPeriod := chunkExpiryPeriod } with
            | .error e => (.error e, L)
            | .ok L2 => (.ok (), L2)

/-- `UpdateChunkExpiryDate` (smartcontract.go): read the asset, require an
applied policy and a non-zero period, recompute the expiry date from the
creation time, refuse a no-op write, else update only `ExpiryDate`. -/
def UpdateChunkExpiryDate (L : Ledger) (id : String) : TxOut :=
  match readAsset L id with
  | .error e => (.error e, L)
  | .ok asset =>
    if asset.AppliedPolicyId = "" ∨ asset.ExpiryPeriod = 0
    then (.error .PolicyNotApplied, L)
    else
      match getAssetCreationTime L id with
      | .error e => (.error e, L)
      | .ok creationTime =>
        let expiryDate := creationTime + asset.ExpiryPeriod
        if expiryDate = asset.ExpiryDate then (.error .NoChange, L)
        else
          match updateAssetExpiryDate L id expiryDate with
          | .error e => (.error e, L)
          | .ok L2 => (.ok (), L2)

/-- The range-scan loop of `GetExpiredChunks` (smartcontract.go, lines
427–463), reproduced faithfully: `count` is declared `var count int = 0`
inside the loop body, so it restarts at 0 on every iteration; after
appending a match it is incremented to 1 and compared against 30. -/
def scanExpired (givenExpiryTime : Int) : List (String × Asset) → List Asset
  | [] => []
  | (_, asset) :: rest =>
    let count : Nat := 0
    if asset.ExpiryDate ≠ 0 ∧ asset.ExpiryDate < givenExpiryTime then
      let count := count + 1
      asset :: (if count = 30 then [] else scanExpired givenExpiryTime rest)
    else scanExpired givenExpiryTime rest

/-- `GetExpiredChunks` (smartcontract.go): parse the cutoff (modelled as the
already-parsed instant `givenExpiryTime`), refuse future cutoffs against
`time.Now()` (modelled as `now`), then scan the whole namespace collecting
records whose `ExpiryDate` is set and strictly before the cutoff. -/
def GetExpiredChunks (L : Ledger) (now givenExpiryTime : Int) :
    Except CCErr (List Asset) :=
  if now < givenExpiryTime then .error .FutureDate
  else .ok (scanExpired givenExpiryTime L.world)

/-- `DeleteChunkIfExpired` (smartcontract.go): the asset must have an applied
policy, a computed expiry date, and be past it (`now` models `time.Now()`). -/
def DeleteChunkIfExpired (L : Ledger) (now : Int) (chunkId : String) : TxOut :=
  match readAsset L chunkId with
  | .error e => (.error e, L)
  | .ok asset =>
    if asset.AppliedPolicyId = "" then (.error .PolicyNotApplied, L)
    else if asset.ExpiryDate = 0 then (.error .ExpiryDateNotComputed, L)
    else if now < asset.ExpiryDate then (.error .ExpiryDateNotReached, L)
    else
      match deleteAsset L chunkId with
      | .error e => (.error e, L)
      | .ok L2 => (.ok (), L2)

/-! ### Concrete sample values used by the witnesses -/

/-- Base64 of the JSON document with id `"a"` and no sensor fields. -/
def encA : String := "eyJpZCI6ImEifQ=="

/-- The same document with a newline inside the base64 stream (byte-different
input, identical decoded bytes: Go's base64 stream decoder skips newlines). -/
def encANewline : String := "eyJpZCI6\nImEifQ=="

/-- The `ChunkData` that `encA` decodes to: id `"a"`, all sensors zero. -/
def chunkA : ChunkData := { zeroChunkData with Id := [97] }

/-- A sample history with a single create entry at timestamp 5 for key
`"a"`. -/
def histA : String → List HistoryEntry :=
  fun id => if id = "a" then [⟨"tx1", 5, some ⟨"", "a", "", 0, 0⟩, false⟩] else []

/-- An asset for `"a"` with no applied policy and a stored hash that is not
the hash of `chunkA`. -/
def assetNoPol : Asset := ⟨"", "a", "", 0, 0⟩

/-- A ledger holding only `assetNoPol`. -/
def ledgerNoPol : Ledger := ⟨[("a", assetNoPol)], histA⟩

/-- An asset for `"a"` with the energy policy applied, the hash of `chunkA`,
a period of 31800 ms, and no expiry date yet. -/
def assetPol : Asset :=
  ⟨"signal_energy_policy_v1", "a", chunkA.hash, 0, defaultExpiryDuration⟩

/-- A ledger holding only `assetPol`. -/
def ledgerPol : Ledger := ⟨[("a", assetPol)], histA⟩

/-- `assetPol` after its expiry date was computed from creation time 5. -/
def assetPolDone : Asset :=
  { assetPol with ExpiryDate := 5 + defaultExpiryDuration }

/-- A ledger holding only `assetPolDone`. -/
def ledgerPolDone : Ledger := ⟨[("a", assetPolDone)], histA⟩

/-- A history recording that `"a"` was created and then deleted (and is no
longer live). -/
def histDeleted : String → List HistoryEntry :=
  fun id =>
    if id = "a" then
      [⟨"tx1", 5, some ⟨"", "a", "", 0, 0⟩, false⟩, ⟨"tx2", 9, none, true⟩]
    else []

/-- A ledger whose world state is empty but whose history shows `"a"` was
created and later deleted. -/
def ledgerDeleted : Ledger := ⟨[], histDeleted⟩

/-- A world state of 31 assets, every one with `ExpiryDate = 1` (set, and
strictly before any cutoff above 1). -/
def worldExpired31 : List (String × Asset) :=
  (List.range 31).map
    (fun i => ("k" ++ toString i, ⟨"p", "k" ++ toString i, "", 1, 0⟩))

/-- The ledger of the 31 expired assets. -/
def ledgerExpired31 : Ledger := ⟨worldExpired31, fun _ => []⟩

/-- Recursive form of the latched loop result of `energyPolicyLogic`:
whether any test fires walking the list with the cyclic axis counter. -/
def anyExceedsList (thr : Threshold) : List FVal → Nat → Bool
  | [], _ => false
  | val :: rest, j =>
    exceedsAxis thr val j ||
    anyExceedsList thr rest (if j + 1 = 3 then 0 else j + 1)

/-- The 18 per-axis sample sequences of a `ChunkData`, in the order
`energyPolicyLogic` processes them. -/
def axesOf (d : ChunkData) : List (List ℚ) :=
  [d.Sensor0.X, d.Sensor0.Y, d.Sensor0.Z,
   d.Sensor1.X, d.Sensor1.Y, d.Sensor1.Z,
   d.Sensor2.X, d.Sensor2.Y, d.Sensor2.Z,
   d.Sensor3.X, d.Sensor3.Y, d.Sensor3.Z,
   d.Sensor4.X, d.Sensor4.Y, d.Sensor4.Z,
   d.Sensor5.X, d.Sensor5.Y, d.Sensor5.Z]

/-- The boolean tested by the claim formulations: some index `i < 18` whose
mean energy strictly exceeds the threshold of axis `i % 3`. -/
def anyEnergyExceeds (d : ChunkData) : Bool :=
  (List.range 18).any fun i =>
    exceedsAxis energyThreshold ((energyArray d).getD i FVal.nan) (i % 3)

/-- Every sensor axis non-empty with all samples zero. -/
def allAxesNonEmptyZero (d : ChunkData) : Prop :=
  ∀ xs ∈ axesOf d, xs ≠ [] ∧ ∀ q ∈ xs, q = 0

/-- The scan latches: its result is the incoming flag or-ed with the
recursive any-test. -/
theorem energyScan_eq (thr : Threshold) :
    ∀ (l : List FVal) (j : Nat) (flag : Bool),
      energyScan thr l j flag = (flag || anyExceedsList thr l j) := by
  intro l
  induction l with
  | nil => intro j flag; simp [energyScan, anyExceedsList]
  | cons v rest ih =>
    intro j flag
    simp only [energyScan, anyExceedsList, ih]
    cases h : exceedsAxis thr v j <;> cases flag <;> simp

/-- On an 18-entry energy array the recursive any-test agrees with the
index-mod-3 formulation. -/
theorem anyExceedsList_eq_anyEnergyExceeds (d : ChunkData) :
    anyExceedsList energyThreshold (energyArray d) 0 = anyEnergyExceeds d := by
  rfl

/-- `energyPolicyLogic` in closed form. -/
theorem energyPolicyLogic_eq (d : ChunkData) :
    energyPolicyLogic d =
      .ok (if anyEnergyExceeds d then thrExpiryDuration
           else defaultExpiryDuration) := by
  simp only [energyPolicyLogic, energyScan_eq, Bool.false_or,
    anyExceedsList_eq_anyEnergyExceeds]

/-- A sum of squares of zero samples is zero. -/
theorem computeSignalEnergy_zero :
    ∀ (xs : List ℚ), (∀ q ∈ xs, q = 0) → computeSignalEnergy xs = 0 := by
  have gen : ∀ (xs : List ℚ) (acc : ℚ), (∀ q ∈ xs, q = 0) →
      xs.foldl (fun energy val => energy + |val| ^ 2) acc = acc := by
    intro xs
    induction xs with
    | nil => intro acc _; rfl
    | cons x rest ih =>
      intro acc h
      have hx : x = 0 := h x (List.mem_cons_self x rest)
      simp only [List.foldl_cons, hx, abs_zero]
      rw [show (acc + 0 ^ 2 : ℚ) = acc by ring]
      exact ih acc (fun q hq => h q (List.mem_cons_of_mem x hq))
  intro xs h
  exact gen xs 0 h

/-- A non-empty all-zero axis has mean energy exactly 0. -/
theorem computeSignalMeanEnergy_zero (xs : List ℚ) (hne : xs ≠ [])
    (hz : ∀ q ∈ xs, q = 0) : computeSignalMeanEnergy xs = .fin 0 := by
  have hlen : xs.length ≠ 0 := fun h => hne (List.length_eq_zero.mp h)
  simp [computeSignalMeanEnergy, hlen, computeSignalEnergy_zero xs hz]

/-- Zero mean energy never fires any axis test (the thresholds are
positive). -/
theorem exceedsAxis_fin_zero (j : Nat) :
    exceedsAxis energyThreshold (.fin 0) j = false := by
  have hx : ¬((18191607053598602 : ℚ) / 10 ^ 22 < 0) := by norm_num
  have hy : ¬((12442575637320148 : ℚ) / 10 ^ 22 < 0) := by norm_num
  have hz : ¬((10956301130461567 : ℚ) / 10 ^ 22 < 0) := by norm_num
  simp [exceedsAxis, FVal.gtQ, energyThreshold, hx, hy, hz]

/-- C3: [claim C3] For every `ChunkData`, `signal_energy_policy_v1` computes
the 18 per-axis mean signal energies (sensor 0..5, axis by index mod 3) and
returns the long expiry 127200 ms (`thrExpiryDuration`, in ns) exactly when
some value strictly exceeds its axis threshold, the short expiry 31800 ms
(`defaultExpiryDuration`) exactly otherwise; for all-zero non-empty sensor
samples every energy is 0 and the result is the short expiry. -/
theorem energy_policy_threshold_selection (d : ChunkData) :
    (energyPolicyLogic d = .ok thrExpiryDuration ↔ anyEnergyExceeds d = true) ∧
    (energyPolicyLogic d = .ok defaultExpiryDuration ↔
      anyEnergyExceeds d = false) ∧
    (allAxesNonEmptyZero d → energyPolicyLogic d = .ok defaultExpiryDuration) := by
  have hne : thrExpiryDuration ≠ defaultExpiryDuration := by decide
  have hne2 : defaultExpiryDuration ≠ thrExpiryDuration := by decide
  refine ⟨?_, ?_, ?_⟩
  · rw [energyPolicyLogic_eq]
    cases h : anyEnergyExceeds d <;> simp [h, hne, hne2]
  · rw [energyPolicyLogic_eq]
    cases h : anyEnergyExceeds d <;> simp [h, hne, hne2]
  · intro hz
    rw [energyPolicyLogic_eq]
    have hidx : anyEnergyExceeds d = false := by
      have hax : ∀ xs ∈ axesOf d, computeSignalMeanEnergy xs = .fin 0 := by
        intro xs hxs
        exact computeSignalMeanEnergy_zero xs (hz xs hxs).1 (hz xs hxs).2
      simp only [axesOf, List.mem_cons, List.not_mem_nil, or_false,
        forall_eq_or_imp, forall_eq] at hax
      obtain ⟨h0x, h0y, h0z, h1x, h1y, h1z, h2x, h2y, h2z, h3x, h3y, h3z,
        h4x, h4y, h4z, h5x, h5y, h5z⟩ := hax
      simp only [anyEnergyExceeds, energyArray, h0x, h0y, h0z, h1x, h1y, h1z,
        h2x, h2y, h2z, h3x, h3y, h3z, h4x, h4y, h4z, h5x, h5y, h5z]
      simp only [List.any_eq_false, List.mem_range]
      intro i hi
      interval_cases i <;>
        simpa using exceedsAxis_fin_zero _
    simp [hidx]

/-- Witness for C3 at a concrete all-zero chunk: every axis holds the single
sample 0, and the policy yields the short expiry. -/
theorem energy_policy_threshold_selection_witness :
    allAxesNonEmptyZero
      ⟨[99, 49], ⟨[0], [0], [0]⟩, ⟨[0], [0], [0]⟩, ⟨[0], [0], [0]⟩,
        ⟨[0], [0], [0]⟩, ⟨[0], [0], [0]⟩, ⟨[0], [0], [0]⟩⟩ ∧
    energyPolicyLogic
      ⟨[99, 49], ⟨[0], [0], [0]⟩, ⟨[0], [0], [0]⟩, ⟨[0], [0], [0]⟩,
        ⟨[0], [0], [0]⟩, ⟨[0], [0], [0]⟩, ⟨[0], [0], [0]⟩⟩ =
      .ok defaultExpiryDuration := by
  have hz : allAxesNonEmptyZero
      ⟨[99, 49], ⟨[0], [0], [0]⟩, ⟨[0], [0], [0]⟩, ⟨[0], [0], [0]⟩,
        ⟨[0], [0], [0]⟩, ⟨[0], [0], [0]⟩, ⟨[0], [0], [0]⟩⟩ := by
    intro xs hxs
    simp only [axesOf, List.mem_cons, List.not_mem_nil, or_false] at hxs
    constructor
    · rcases hxs with h | h | h | h | h | h | h | h | h | h | h | h | h | h |
        h | h | h | h <;> simp [h]
    · intro q hq
      rcases hxs with h | h | h | h | h | h | h | h | h | h | h | h | h | h |
        h | h | h | h <;> (subst h; simpa using hq)
  exact ⟨hz,
    (energy_policy_threshold_selection
      ⟨[99, 49], ⟨[0], [0], [0]⟩, ⟨[0], [0], [0]⟩, ⟨[0], [0], [0]⟩,
        ⟨[0], [0], [0]⟩, ⟨[0], [0], [0]⟩, ⟨[0], [0], [0]⟩⟩).2.2 hz⟩

/-- C4: [claim C4] If some sensor axis of a `ChunkData` is empty,
`signal_energy_policy_v1` still returns successfully: the mean energy of the
empty sequence is the 0.0/0.0 division, i.e. NaN; NaN never compares
strictly greater than any threshold; and when no axis test fires the policy
silently yields the short expiry 31800 ms. -/
theorem energy_policy_empty_axis_nan (d : ChunkData)
    (_hempty : ∃ xs ∈ axesOf d, xs = []) :
    (∃ v, energyPolicyLogic d = .ok v) ∧
    computeSignalMeanEnergy [] = .nan ∧
    (∀ t : ℚ, FVal.gtQ .nan t = false) ∧
    (anyEnergyExceeds d = false →
      energyPolicyLogic d = .ok defaultExpiryDuration) := by
  refine ⟨⟨_, energyPolicyLogic_eq d⟩, rfl, fun _ => rfl, ?_⟩
  intro h
  rw [energyPolicyLogic_eq, h]
  rfl

/-- Witness for C4 at the zero `ChunkData` (all axes empty, no test fires).  -/
theorem energy_policy_empty_axis_nan_witness :
    (∃ xs ∈ axesOf zeroChunkData, xs = []) ∧
    anyEnergyExceeds zeroChunkData = false ∧
    energyPolicyLogic zeroChunkData = .ok defaultExpiryDuration := by
  have hempty : ∃ xs ∈ axesOf zeroChunkData, xs = [] :=
    ⟨[], by simp [axesOf, zeroChunkData, zeroSensorData], rfl⟩
  have hany : anyEnergyExceeds zeroChunkData = false := by decide
  exact ⟨hempty, hany,
    (energy_policy_empty_axis_nan zeroChunkData hempty).2.2.2 hany⟩

/-- Looking up the key just written finds the written value. -/
theorem find_putList :
    ∀ (w : List (String × Asset)) (id : String) (a : Asset),
      ((putList w id a).find? (fun p => p.1 = id)).map (fun p => p.2) =
        some a := by
  intro w id a
  induction w with
  | nil => simp [putList, List.find?]
  | cons p rest ih =>
    by_cases h : p.1 = id
    · simp [putList, h, List.find?_cons]
    · simp only [putList]
      rw [if_neg (by simpa using h)]
      simpa [List.find?_cons, h] using ih

/-- `GetState` after `PutState` on the same key. -/
theorem getState_putState (L : Ledger) (id : String) (a : Asset) :
    getState (putState L id a) id = some a := by
  simpa [getState, putState] using find_putList L.world id a

/-- `readAsset` after `PutState` on the same key. -/
theorem readAsset_putState (L : Ledger) (id : String) (a : Asset) :
    readAsset (putState L id a) id = .ok a := by
  simp [readAsset, getState_putState]

/-- `PutState` leaves the history untouched. -/
theorem history_putState (L : Ledger) (id : String) (a : Asset) :
    (putState L id a).history = L.history := rfl

/-- Success characterization of `AddChunk`: the id was not live, the data
decoded, and the new asset carries the hash of the decoded data, no policy
and zero expiry. -/
theorem AddChunk_ok (L : Ledger) (id enc : String) (L2 : Ledger)
    (h : AddChunk L id enc = (.ok (), L2)) :
    assetExists L id = false ∧
    ∃ d, base64DecodeJson enc = .ok d ∧
      L2 = putState L id
        { AppliedPolicyId := "", ChunkId := id, DataHash := d.hash,
          ExpiryDate := 0, ExpiryPeriod := 0 } := by
  unfold AddChunk at h
  cases hex : assetExists L id with
  | true => rw [hex] at h; simp [Prod.ext_iff] at h
  | false =>
    rw [hex] at h
    simp only [Bool.false_eq_true, if_false] at h
    refine ⟨rfl, ?_⟩
    cases hdec : base64DecodeJson enc with
    | error e => rw [hdec] at h; simp [Prod.ext_iff] at h
    | ok d =>
      rw [hdec] at h
      unfold createAsset at h
      simp only [hex] at h
      simp [Prod.ext_iff] at h
      exact ⟨d, rfl, h.symm⟩

/-- Success characterization of `ApplyPolicy`: the asset was read, the data
decoded with matching hash, the policy evaluated, the expiry recomputed from
creation time, and only the three policy fields were rewritten. -/
theorem ApplyPolicy_ok (L : Ledger) (nowSec : Nat) (id enc pid : String)
    (asset : Asset) (L2 : Ledger)
    (hread : readAsset L id = .ok asset)
    (h : ApplyPolicy L nowSec id enc pid = (.ok (), L2)) :
    ∃ d per ct, base64DecodeJson enc = .ok d ∧ asset.DataHash = d.hash ∧
      d.applyPolicyById pid nowSec = .ok per ∧
      getAssetCreationTime L id = .ok ct ∧ asset.ChunkId = id ∧
      L2 = putState L id
        { asset with AppliedPolicyId := pid, ExpiryDate := ct + per,
                     ExpiryPeriod := per } := by
  unfold ApplyPolicy at h
  rw [hread] at h
  simp only at h
  cases hdec : base64DecodeJson enc with
  | error e => rw [hdec] at h; simp [Prod.ext_iff] at h
  | ok d =>
    rw [hdec] at h
    simp only at h
    by_cases hhash : asset.DataHash = d.hash
    · rw [if_neg (by simpa using hhash)] at h
      cases hper : d.applyPolicyById pid nowSec with
      | error e => rw [hper] at h; simp [Prod.ext_iff] at h
      | ok per =>
        rw [hper] at h
        simp only at h
        cases hct : getAssetCreationTime L id with
        | error e =>
          rw [show computeExpiryDate L id per = .error e by
            simp [computeExpiryDate, hct]] at h
          simp [Prod.ext_iff] at h
        | ok ct =>
          rw [show computeExpiryDate L id per = .ok (ct + per) by
            simp [computeExpiryDate, hct]] at h
          simp only at h
          unfold updateAsset at h
          by_cases hid : asset.ChunkId = id
          · rw [if_neg (by simpa using hid), hread] at h
            simp only at h
            simp [Prod.ext_iff] at h
            exact ⟨d, per, ct, rfl, hhash, hper, rfl, hid, h.symm⟩
          · rw [if_pos (by simpa using hid)] at h
            simp [Prod.ext_iff] at h
    · rw [if_pos (by simpa using hhash)] at h
      simp [Prod.ext_iff] at h

/-- Success characterization of `UpdateChunkExpiryDate`: a policy was
applied, the recomputed date differs from the stored one, and only
`ExpiryDate` was rewritten. -/
theorem UpdateChunkExpiryDate_ok (L : Ledger) (id : String)
    (asset : Asset) (L2 : Ledger)
    (hread : readAsset L id = .ok asset)
    (h : UpdateChunkExpiryDate L id = (.ok (), L2)) :
    ¬(asset.AppliedPolicyId = "" ∨ asset.ExpiryPeriod = 0) ∧
    asset.ChunkId = id ∧
    ∃ ct, getAssetCreationTime L id = .ok ct ∧
      ct + asset.ExpiryPeriod ≠ asset.ExpiryDate ∧
      L2 = putState L id { asset with ExpiryDate := ct + asset.ExpiryPeriod } := by
  unfold UpdateChunkExpiryDate at h
  rw [hread] at h
  simp only at h
  by_cases hpol : asset.AppliedPolicyId = "" ∨ asset.ExpiryPeriod = 0
  · rw [if_pos hpol] at h; simp [Prod.ext_iff] at h
  · rw [if_neg hpol] at h
    cases hct : getAssetCreationTime L id with
    | error e => rw [hct] at h; simp [Prod.ext_iff] at h
    | ok ct =>
      rw [hct] at h
      simp only at h
      by_cases hchg : ct + asset.ExpiryPeriod = asset.ExpiryDate
      · rw [if_pos hchg] at h; simp [Prod.ext_iff] at h
      · rw [if_neg hchg] at h
        unfold updateAssetExpiryDate at h
        rw [hread] at h
        simp only at h
        unfold updateAsset at h
        simp only at h
        by_cases hid : asset.ChunkId = id
        · rw [if_neg (by simpa using hid), hread] at h
          simp only at h
          simp [Prod.ext_iff] at h
          exact ⟨hpol, hid, ct, rfl, hchg, h.symm⟩
        · rw [if_pos (by simpa using hid)] at h
          simp [Prod.ext_iff] at h

/-- `applyPolicyById` can only fail with `PolicyNotFound` (both policy
logics always succeed). -/
theorem applyPolicyById_error (d : ChunkData) (pid : String) (ns : Nat)
    (e : CCErr) (h : d.applyPolicyById pid ns = .error e) :
    ∃ s, e = .PolicyNotFound s := by
  unfold ChunkData.applyPolicyById getPolicy at h
  by_cases h1 : pid = "example_policy_v1"
  · simp [h1, examplePolicyLogic] at h
  · by_cases h2 : pid = "signal_energy_policy_v1"
    · simp [h1, h2, energyPolicyLogic] at h
    · simp only [h1, h2, if_false] at h
      simp at h
      exact ⟨pid, h.symm⟩

/-- `getAssetCreationTime` can only fail with `EmptyHistory`. -/
theorem getAssetCreationTime_error (L : Ledger) (id : String) (e : CCErr)
    (h : getAssetCreationTime L id = .error e) : e = .EmptyHistory := by
  unfold getAssetCreationTime at h
  cases hh : getAssetHistory L id with
  | nil => rw [hh] at h; simpa using h.symm
  | cons x rest => rw [hh] at h; simp at h

/-- `computeExpiryDate` can only fail with `EmptyHistory`. -/
theorem computeExpiryDate_error (L : Ledger) (id : String) (p : Int)
    (e : CCErr) (h : computeExpiryDate L id p = .error e) :
    e = .EmptyHistory := by
  unfold computeExpiryDate at h
  cases hc : getAssetCreationTime L id with
  | error e2 =>
    rw [hc] at h
    simp at h
    rw [h] at hc
    exact getAssetCreationTime_error L id e hc
  | ok ct => rw [hc] at h; simp at h

/-- `readAsset` can only fail with `AssetNotFound` on its own id. -/
theorem readAsset_error (L : Ledger) (id : String) (e : CCErr)
    (h : readAsset L id = .error e) : e = .AssetNotFound id := by
  unfold readAsset at h
  cases hg : getState L id with
  | none => rw [hg] at h; simpa using h.symm
  | some a => rw [hg] at h; simp at h

/-- `updateAsset` can only fail with `IdMismatch` or a read failure. -/
theorem updateAsset_error (L : Ledger) (id : String) (a : Asset) (e : CCErr)
    (h : updateAsset L id a = .error e) :
    e = .IdMismatch ∨ ∃ s, e = .AssetNotFound s := by
  unfold updateAsset at h
  by_cases hid : a.ChunkId = id
  · rw [if_neg (by simpa using hid)] at h
    cases hr : readAsset L id with
    | error e2 =>
      rw [hr] at h
      simp at h
      exact Or.inr ⟨id, h ▸ readAsset_error L id e2 hr⟩
    | ok a2 => rw [hr] at h; simp at h
  · rw [if_pos (by simpa using hid)] at h
    simp at h
    exact Or.inl h.symm

/-- The integrity gate of `ApplyPolicy`: `IntegrityMismatch` exactly on a
hash difference, in which case nothing is written. -/
theorem ApplyPolicy_integrity_iff (L : Ledger) (nowSec : Nat)
    (id enc pid : String) (asset : Asset) (d : ChunkData)
    (hread : readAsset L id = .ok asset)
    (hdec : base64DecodeJson enc = .ok d) :
    ((ApplyPolicy L nowSec id enc pid).1 = .error .IntegrityMismatch ↔
      d.hash ≠ asset.DataHash) ∧
    (d.hash ≠ asset.DataHash →
      ApplyPolicy L nowSec id enc pid = (.error .IntegrityMismatch, L)) := by
  have hmain : asset.DataHash ≠ d.hash →
      ApplyPolicy L nowSec id enc pid = (.error .IntegrityMismatch, L) := by
    intro hne
    unfold ApplyPolicy
    rw [hread]
    simp only
    rw [hdec]
    simp only
    rw [if_pos hne]
  have hok : asset.DataHash = d.hash →
      (ApplyPolicy L nowSec id enc pid).1 ≠ .error .IntegrityMismatch := by
    intro heq
    unfold ApplyPolicy
    rw [hread]
    simp only
    rw [hdec]
    simp only
    rw [if_neg (by simpa using heq)]
    cases hper : d.applyPolicyById pid nowSec with
    | error e =>
      obtain ⟨s, hs⟩ := applyPolicyById_error d pid nowSec e hper
      simp [hs]
    | ok per =>
      simp only
      cases hce : computeExpiryDate L id per with
      | error e =>
        have := computeExpiryDate_error L id per e hce
        simp [this]
      | ok dte =>
        simp only
        cases hup : updateAsset L id
            { asset with AppliedPolicyId := pid, ExpiryDate := dte,
                         ExpiryPeriod := per } with
        | error e =>
          rcases updateAsset_error L id _ e hup with h1 | ⟨s, h2⟩
          · simp [h1]
          · simp [h2]
        | ok L2 => simp
  constructor
  · constructor
    · intro h
      by_cases heq : asset.DataHash = d.hash
      · exact absurd h (hok heq)
      · exact fun hc => heq hc.symm
    · intro hne
      rw [hmain (Ne.symm hne)]
  · intro hne
    exact hmain (Ne.symm hne)

/-- C5: [claim C5] For an existing asset and well-formed encoded data,
`ApplyPolicy` fails with `IntegrityMismatch` exactly when the hash of the
supplied decoded chunk data differs from the asset's stored `DataHash`, and
in that failure case the ledger is left unchanged: no write occurs. -/
theorem apply_policy_integrity_check (L : Ledger) (nowSec : Nat)
    (id enc pid : String) (asset : Asset) (d : ChunkData)
    (hread : readAsset L id = .ok asset)
    (hdec : base64DecodeJson enc = .ok d) :
    ((ApplyPolicy L nowSec id enc pid).1 = .error .IntegrityMismatch ↔
      d.hash ≠ asset.DataHash) ∧
    (d.hash ≠ asset.DataHash →
      ApplyPolicy L nowSec id enc pid = (.error .IntegrityMismatch, L)) :=
  ApplyPolicy_integrity_iff L nowSec id enc pid asset d hread hdec

/-- Witness for C5: the stored hash `""` differs from the hash of the
decoded data, and `ApplyPolicy` fails with `IntegrityMismatch` leaving the
ledger untouched. -/
theorem apply_policy_integrity_check_witness :
    readAsset ledgerNoPol "a" = .ok assetNoPol ∧
    base64DecodeJson encA = .ok chunkA ∧
    chunkA.hash ≠ assetNoPol.DataHash ∧
    ApplyPolicy ledgerNoPol 0 "a" encA "signal_energy_policy_v1" =
      (.error .IntegrityMismatch, ledgerNoPol) := by
  have hread : readAsset ledgerNoPol "a" = .ok assetNoPol := by rfl
  have hdec : base64DecodeJson encA = .ok chunkA := by rfl
  have hne : chunkA.hash ≠ assetNoPol.DataHash := by decide
  exact ⟨hread, hdec, hne,
    (apply_policy_integrity_check ledgerNoPol 0 "a" encA
      "signal_energy_policy_v1" assetNoPol chunkA hread hdec).2 hne⟩

/-- C8: [claim C8] `getAssetCreationTime` fails with `EmptyHistory` exactly
when the asset's history is empty, and otherwise returns the timestamp of
the first (oldest) history entry; `computeExpiryDate` is that creation
timestamp plus the given period, purely additive. -/
theorem creation_time_first_entry (L : Ledger) (id : String) :
    (getAssetCreationTime L id = .error .EmptyHistory ↔
      getAssetHistory L id = []) ∧
    (∀ e rest, getAssetHistory L id = e :: rest →
      getAssetCreationTime L id = .ok e.timestamp ∧
      ∀ p : Int, computeExpiryDate L id p = .ok (e.timestamp + p)) := by
  constructor
  · constructor
    · intro h
      cases hh : getAssetHistory L id with
      | nil => rfl
      | cons e rest =>
        unfold getAssetCreationTime at h
        rw [hh] at h
        simp at h
    · intro hh
      unfold getAssetCreationTime
      rw [hh]
  · intro e rest hh
    have h1 : getAssetCreationTime L id = .ok e.timestamp := by
      unfold getAssetCreationTime
      rw [hh]
    exact ⟨h1, fun p => by unfold computeExpiryDate; rw [h1]⟩

/-- Witness for C8 at a concrete one-entry history: creation time 5 and
expiry 5 + 7. -/
theorem creation_time_first_entry_witness :
    getAssetHistory ledgerPol "a" =
      ⟨"tx1", 5, some ⟨"", "a", "", 0, 0⟩, false⟩ :: [] ∧
    getAssetCreationTime ledgerPol "a" = .ok 5 ∧
    computeExpiryDate ledgerPol "a" 7 = .ok 12 := by
  have hh : getAssetHistory ledgerPol "a" =
      ⟨"tx1", 5, some ⟨"", "a", "", 0, 0⟩, false⟩ :: [] := by rfl
  have := (creation_time_first_entry ledgerPol "a").2 _ _ hh
  exact ⟨hh, this.1, this.2 7⟩

/-- C6: [claim C6] `UpdateChunkExpiryDate` fails with `PolicyNotApplied`
whenever the asset's `AppliedPolicyId` is empty or its `ExpiryPeriod` is
zero; otherwise it recomputes creation time plus period and fails with
`NoChange` (writing nothing) when the recomputed date equals the stored
one; hence a second call after a successful one, with no intervening policy
change, always fails with `NoChange` and writes nothing. -/
theorem update_expiry_guards (L : Ledger) (id : String) (asset : Asset)
    (hread : readAsset L id = .ok asset) :
    (asset.AppliedPolicyId = "" ∨ asset.ExpiryPeriod = 0 →
      UpdateChunkExpiryDate L id = (.error .PolicyNotApplied, L)) ∧
    (∀ ct, getAssetCreationTime L id = .ok ct →
      ¬(asset.AppliedPolicyId = "" ∨ asset.ExpiryPeriod = 0) →
      ct + asset.ExpiryPeriod = asset.ExpiryDate →
      UpdateChunkExpiryDate L id = (.error .NoChange, L)) ∧
    (∀ L2, UpdateChunkExpiryDate L id = (.ok (), L2) →
      UpdateChunkExpiryDate L2 id = (.error .NoChange, L2)) := by
  refine ⟨?_, ?_, ?_⟩
  · intro hpol
    unfold UpdateChunkExpiryDate
    rw [hread]
    simp only
    rw [if_pos hpol]
  · intro ct hct hpol hchg
    unfold UpdateChunkExpiryDate
    rw [hread]
    simp only
    rw [if_neg hpol, hct]
    simp only
    rw [if_pos hchg]
  · intro L2 h
    obtain ⟨hpol, hid, ct, hct, hchg, hL2⟩ :=
      UpdateChunkExpiryDate_ok L id asset L2 hread h
    have hread2 : readAsset L2 id =
        .ok { asset with ExpiryDate := ct + asset.ExpiryPeriod } := by
      rw [hL2]; exact readAsset_putState L id _
    have hct2 : getAssetCreationTime L2 id = .ok ct := by
      rw [hL2]; exact hct
    unfold UpdateChunkExpiryDate
    rw [hread2]
    simp only
    rw [if_neg (by simpa using hpol), hct2]
    simp

/-- Witness for C6 at concrete ledgers: the no-policy asset gives
`PolicyNotApplied`; from `ledgerPol` the first call succeeds and the second
fails with `NoChange`; the already-updated asset gives `NoChange` at once. -/
theorem update_expiry_guards_witness :
    UpdateChunkExpiryDate ledgerNoPol "a" =
      (.error .PolicyNotApplied, ledgerNoPol) ∧
    UpdateChunkExpiryDate ledgerPolDone "a" =
      (.error .NoChange, ledgerPolDone) ∧
    UpdateChunkExpiryDate ledgerPol "a" =
      (.ok (), putState ledgerPol "a" assetPolDone) ∧
    UpdateChunkExpiryDate (putState ledgerPol "a" assetPolDone) "a" =
      (.error .NoChange, putState ledgerPol "a" assetPolDone) := by
  have h1 := (update_expiry_guards ledgerNoPol "a" assetNoPol rfl).1
    (Or.inl rfl)
  have h2 := (update_expiry_guards ledgerPolDone "a" assetPolDone rfl).2.1
    5 rfl (by decide) rfl
  have h3 : UpdateChunkExpiryDate ledgerPol "a" =
      (.ok (), putState ledgerPol "a" assetPolDone) := by rfl
  have h4 := (update_expiry_guards ledgerPol "a" assetPol rfl).2.2 _ h3
  exact ⟨h1, h2, h3, h4⟩

/-- C9: [claim C9] For an existing asset, a successful `ApplyPolicy` leaves
`ChunkId` and `DataHash` unchanged (it rewrites only `AppliedPolicyId`,
`ExpiryPeriod` and `ExpiryDate`), and a successful `UpdateChunkExpiryDate`
rewrites only `ExpiryDate`; `DataHash` is immutable after creation. -/
theorem policy_ops_preserve_identity (L : Ledger) (nowSec : Nat)
    (id enc pid : String) (asset : Asset)
    (hread : readAsset L id = .ok asset) :
    (∀ L2, ApplyPolicy L nowSec id enc pid = (.ok (), L2) →
      ∃ per dte, getState L2 id =
        some ⟨pid, asset.ChunkId, asset.DataHash, dte, per⟩) ∧
    (∀ L2, UpdateChunkExpiryDate L id = (.ok (), L2) →
      ∃ dte, getState L2 id = some { asset with ExpiryDate := dte }) := by
  constructor
  · intro L2 h
    obtain ⟨d, per, ct, _, _, _, _, hid, hL2⟩ :=
      ApplyPolicy_ok L nowSec id enc pid asset L2 hread h
    refine ⟨per, ct + per, ?_⟩
    rw [hL2, getState_putState]
  · intro L2 h
    obtain ⟨_, _, ct, _, _, hL2⟩ :=
      UpdateChunkExpiryDate_ok L id asset L2 hread h
    refine ⟨ct + asset.ExpiryPeriod, ?_⟩
    rw [hL2, getState_putState]

/-- Witness for C9: from `ledgerPol`, both a successful `ApplyPolicy` and a
successful `UpdateChunkExpiryDate` preserve `ChunkId` and `DataHash`. -/
theorem policy_ops_preserve_identity_witness :
    readAsset ledgerPol "a" = .ok assetPol ∧
    ApplyPolicy ledgerPol 0 "a" encA "signal_energy_policy_v1" =
      (.ok (), putState ledgerPol "a"
        { assetPol with AppliedPolicyId := "signal_energy_policy_v1",
                        ExpiryDate := 5 + defaultExpiryDuration,
                        ExpiryPeriod := defaultExpiryDuration }) ∧
    (∃ per dte, getState (putState ledgerPol "a"
        { assetPol with AppliedPolicyId := "signal_energy_policy_v1",
                        ExpiryDate := 5 + defaultExpiryDuration,
                        ExpiryPeriod := defaultExpiryDuration }) "a" =
      some ⟨"signal_energy_policy_v1", assetPol.ChunkId, assetPol.DataHash,
            dte, per⟩) ∧
    UpdateChunkExpiryDate ledgerPol "a" = (.ok (), putState ledgerPol "a" assetPolDone) ∧
    (∃ dte, getState (putState ledgerPol "a" assetPolDone) "a" =
      some { assetPol with ExpiryDate := dte }) := by
  have hread : readAsset ledgerPol "a" = .ok assetPol := rfl
  have happ : ApplyPolicy ledgerPol 0 "a" encA "signal_energy_policy_v1" =
      (.ok (), putState ledgerPol "a"
        { assetPol with AppliedPolicyId := "signal_energy_policy_v1",
                        ExpiryDate := 5 + defaultExpiryDuration,
                        ExpiryPeriod := defaultExpiryDuration }) := by rfl
  have hupd : UpdateChunkExpiryDate ledgerPol "a" =
      (.ok (), putState ledgerPol "a" assetPolDone) := by rfl
  have hth := policy_ops_preserve_identity ledgerPol 0 "a" encA
    "signal_energy_policy_v1" assetPol hread
  exact ⟨hread, happ, hth.1 _ happ, hupd, hth.2 _ hupd⟩

/-- `base64DecodeJson` can only fail with `DecodeError`. -/
theorem base64DecodeJson_error (enc : String) (e : CCErr)
    (h : base64DecodeJson enc = .error e) : e = .DecodeError := by
  unfold base64DecodeJson at h
  cases hb : base64Decode (strBytes enc) with
  | none => rw [hb] at h; simp only at h; simpa using h.symm
  | some bytes =>
    rw [hb] at h
    simp only at h
    cases hp : parseVal (bytes.length + 1) bytes with
    | none => rw [hp] at h; simp only at h; simpa using h.symm
    | some p =>
      obtain ⟨v, rest2⟩ := p
      rw [hp] at h
      simp only at h
      cases hc : chunkDataOfJVal v with
      | none => rw [hc] at h; simp only at h; simpa using h.symm
      | some d => rw [hc] at h; simp at h

/-- `AddChunk` on a live id fails with `AssetAlreadyExists` and writes
nothing. -/
theorem AddChunk_live (L : Ledger) (id enc : String)
    (hex : assetExists L id = true) :
    AddChunk L id enc = (.error (.AssetAlreadyExists id), L) := by
  unfold AddChunk
  rw [hex]
  simp

/-- `AddChunkWithPolicy` on a live id fails with `AssetAlreadyExists` and
writes nothing. -/
theorem AddChunkWithPolicy_live (L : Ledger) (nowSec : Nat)
    (id enc pid : String) (hex : assetExists L id = true) :
    AddChunkWithPolicy L nowSec id enc pid =
      (.error (.AssetAlreadyExists id), L) := by
  unfold AddChunkWithPolicy
  rw [hex]
  simp

/-- A successful validation pass implies no listed id was live. -/
theorem batchValidate_ok_not_live (L : Ledger) (nowSec : Nat) :
    ∀ (ids datas pols : List String) (as : List Asset),
      ids.length = datas.length → ids.length = pols.length →
      batchValidate L nowSec ids datas pols = .ok as →
      ∀ id ∈ ids, assetExists L id = false := by
  intro ids
  induction ids with
  | nil => intro datas pols as _ _ _ id hid; simp at hid
  | cons id0 rest ih =>
    intro datas pols as hd hp hok id hid
    match datas, pols with
    | d0 :: drest, p0 :: prest =>
      unfold batchValidate at hok
      cases hex : assetExists L id0 with
      | true => rw [hex] at hok; simp at hok
      | false =>
        rw [hex] at hok
        simp only [Bool.false_eq_true, if_false] at hok
        rcases List.mem_cons.mp hid with h | h
        · rw [h]; exact hex
        · cases hdec : base64DecodeJson d0 with
          | error e => rw [hdec] at hok; simp at hok
          | ok cd =>
            rw [hdec] at hok
            simp only at hok
            cases hper : cd.applyPolicyById p0 nowSec with
            | error e => rw [hper] at hok; simp at hok
            | ok per =>
              rw [hper] at hok
              simp only at hok
              cases hrest : batchValidate L nowSec rest drest prest with
              | error e => rw [hrest] at hok; simp at hok
              | ok asrest =>
                exact ih drest prest asrest (by simpa using hd)
                  (by simpa using hp) hrest id h

/-- C2 (amended): [claim C2] Creation fails with `AssetAlreadyExists`
exactly when a record with that id is currently live in the world state
(`AddChunk` and `AddChunkWithPolicy`; the batch cannot succeed when any
listed id is live).  The existence check consults only the live world
state, so a previously created and deleted id is not detected. -/
theorem creation_fails_iff_live (L : Ledger) (nowSec : Nat)
    (id enc pid : String) :
    ((AddChunk L id enc).1 = .error (.AssetAlreadyExists id) ↔
      assetExists L id = true) ∧
    ((AddChunkWithPolicy L nowSec id enc pid).1 =
        .error (.AssetAlreadyExists id) ↔ assetExists L id = true) ∧
    (∀ (ids datas pols : List String) (i : Nat) (h : i < ids.length),
      assetExists L ids[i] = true →
      (AddChunkWithPolicyBatch L nowSec ids datas pols).1 ≠ .ok ()) := by
  refine ⟨⟨?_, ?_⟩, ⟨?_, ?_⟩, ?_⟩
  · intro h
    cases hex : assetExists L id with
    | true => rfl
    | false =>
      exfalso
      unfold AddChunk at h
      rw [hex] at h
      simp only [Bool.false_eq_true, if_false] at h
      cases hdec : base64DecodeJson enc with
      | error e =>
        rw [hdec] at h
        simp only at h
        rw [base64DecodeJson_error enc e hdec] at h
        simp at h
      | ok d =>
        rw [hdec] at h
        unfold createAsset at h
        simp only [hex] at h
        simp at h
  · intro hex
    rw [AddChunk_live L id enc hex]
  · intro h
    cases hex : assetExists L id with
    | true => rfl
    | false =>
      exfalso
      unfold AddChunkWithPolicy at h
      rw [hex] at h
      simp only [Bool.false_eq_true, if_false] at h
      cases hdec : base64DecodeJson enc with
      | error e =>
        rw [hdec] at h
        simp only at h
        rw [base64DecodeJson_error enc e hdec] at h
        simp at h
      | ok d =>
        rw [hdec] at h
        simp only at h
        cases hper : d.applyPolicyById pid nowSec with
        | error e =>
          rw [hper] at h
          simp only at h
          obtain ⟨s, hs⟩ := applyPolicyById_error d pid nowSec e hper
          rw [hs] at h
          simp at h
        | ok per =>
          rw [hper] at h
          unfold createAsset at h
          simp only [hex] at h
          simp at h
  · intro hex
    rw [AddChunkWithPolicy_live L nowSec id enc pid hex]
  · intro ids datas pols i h hlive hok
    unfold AddChunkWithPolicyBatch at hok
    by_cases hlen : ids.length ≠ datas.length ∨ ids.length ≠ pols.length
    · rw [if_pos hlen] at hok; simp at hok
    · rw [if_neg hlen] at hok
      push_neg at hlen
      cases hval : batchValidate L nowSec ids datas pols with
      | error e => rw [hval] at hok; simp at hok
      | ok as =>
        have := batchValidate_ok_not_live L nowSec ids datas pols as
          hlen.1 hlen.2 hval ids[i] (List.getElem_mem h)
        rw [hlive] at this
        simp at this

/-- Counterexample for C2 as frozen: on a ledger whose history shows `"a"`
was created and later deleted (its world state is empty), `AddChunk`
succeeds and re-creates the asset under the same id. -/
theorem addchunk_recreates_deleted_id :
    ((ledgerDeleted.history "a").any (fun e => e.isDelete)) = true ∧
    getState ledgerDeleted "a" = none ∧
    (AddChunk ledgerDeleted "a" encA).1 = .ok () ∧
    assetExists (AddChunk ledgerDeleted "a" encA).2 "a" = true := by
  refine ⟨rfl, rfl, ?_, ?_⟩ <;> rfl

/-- Witness for C2 (amended) at a live id and a one-element batch naming a
live id. -/
theorem creation_fails_iff_live_witness :
    assetExists ledgerNoPol "a" = true ∧
    (AddChunk ledgerNoPol "a" encA).1 = .error (.AssetAlreadyExists "a") ∧
    (AddChunkWithPolicyBatch ledgerNoPol 0 ["a"] [encA]
      ["signal_energy_policy_v1"]).1 ≠ .ok () := by
  have hex : assetExists ledgerNoPol "a" = true := rfl
  have hth := creation_fails_iff_live ledgerNoPol 0 "a" encA
    "signal_energy_policy_v1"
  exact ⟨hex, hth.1.mpr hex,
    hth.2.2 ["a"] [encA] ["signal_energy_policy_v1"] 0 (by decide) hex⟩

/-- C7: [claim C7] `AddChunkWithPolicyBatch` fails with `SizeMismatch`
whenever the three arrays differ in length (writing nothing, so a
mismatched-length call creates none of the named assets, as in the
`["a","b"], [d1,d2], ["p1"]` scenario), and it runs the whole validation
pass before any write: if validation fails, the ledger is returned
unchanged. -/
theorem batch_all_or_nothing (L : Ledger) (nowSec : Nat)
    (ids datas pols : List String) :
    (¬(ids.length = datas.length ∧ ids.length = pols.length) →
      AddChunkWithPolicyBatch L nowSec ids datas pols =
        (.error .SizeMismatch, L)) ∧
    (∀ e, ids.length = datas.length → ids.length = pols.length →
      batchValidate L nowSec ids datas pols = .error e →
      AddChunkWithPolicyBatch L nowSec ids datas pols = (.error e, L)) ∧
    (∀ d1 d2 : String,
      AddChunkWithPolicyBatch L nowSec ["a", "b"] [d1, d2] ["p1"] =
        (.error .SizeMismatch, L)) := by
  refine ⟨?_, ?_, ?_⟩
  · intro hlen
    unfold AddChunkWithPolicyBatch
    rw [if_pos (by tauto)]
  · intro e hd hp hval
    unfold AddChunkWithPolicyBatch
    rw [if_neg (by push_neg; exact ⟨hd, hp⟩), hval]
  · intro d1 d2
    unfold AddChunkWithPolicyBatch
    rw [if_pos (by simp)]

/-- Witness for C7: the mismatched-length scenario fails with
`SizeMismatch` leaving the ledger unchanged, and an equal-length batch
whose data is not valid base64 fails its validation pass with
`DecodeError`, also leaving the ledger unchanged. -/
theorem batch_all_or_nothing_witness :
    AddChunkWithPolicyBatch ledgerNoPol 0 ["a", "b"] ["x", "y"] ["p1"] =
      (.error .SizeMismatch, ledgerNoPol) ∧
    batchValidate ledgerNoPol 0 ["b"] ["%%"] ["p1"] = .error .DecodeError ∧
    AddChunkWithPolicyBatch ledgerNoPol 0 ["b"] ["%%"] ["p1"] =
      (.error .DecodeError, ledgerNoPol) := by
  have hth := batch_all_or_nothing ledgerNoPol 0 ["b"] ["%%"] ["p1"]
  have hval : batchValidate ledgerNoPol 0 ["b"] ["%%"] ["p1"] =
      .error .DecodeError := by rfl
  exact ⟨(batch_all_or_nothing ledgerNoPol 0 ["a", "b"] ["x", "y"]
      ["p1"]).2.2 "x" "y",
    hval, hth.2.1 .DecodeError rfl rfl hval⟩

/-- C10: [claim C10] The stored `DataHash` is a function of the decoded
`ChunkData` value, not of the submitted bytes: two encoded inputs that
decode to the same value yield the same digest, and `ApplyPolicy`'s
integrity check passes against a byte-different re-encoding of the data an
asset was created from. -/
theorem hash_depends_on_decoded_value (L : Ledger) (nowSec : Nat)
    (id e1 e2 pid : String) (d : ChunkData)
    (h1 : base64DecodeJson e1 = .ok d)
    (h2 : base64DecodeJson e2 = .ok d) :
    ((base64DecodeJson e1).map ChunkData.hash =
      (base64DecodeJson e2).map ChunkData.hash) ∧
    (∀ L2, AddChunk L id e1 = (.ok (), L2) →
      (ApplyPolicy L2 nowSec id e2 pid).1 ≠ .error .IntegrityMismatch) := by
  constructor
  · rw [h1, h2]
  · intro L2 hadd
    obtain ⟨hex, d1, hd1, hL2⟩ := AddChunk_ok L id e1 L2 hadd
    have hdd : d1 = d := by
      rw [h1] at hd1
      simpa using hd1.symm
    subst hdd
    have hread2 : readAsset L2 id =
        .ok { AppliedPolicyId := "", ChunkId := id, DataHash := d1.hash,
              ExpiryDate := 0, ExpiryPeriod := 0 } := by
      rw [hL2]; exact readAsset_putState L id _
    intro hIM
    have := (ApplyPolicy_integrity_iff L2 nowSec id e2 pid _ d1 hread2
      h2).1.mp hIM
    exact this rfl

/-- Witness for C10: `encA` and `encANewline` are byte-different strings
decoding to the same `ChunkData`; after creating `"a"` from `encA`,
`ApplyPolicy` with `encANewline` passes the integrity check. -/
theorem hash_depends_on_decoded_value_witness :
    encA ≠ encANewline ∧
    base64DecodeJson encA = .ok chunkA ∧
    base64DecodeJson encANewline = .ok chunkA ∧
    AddChunk ledgerDeleted "a" encA =
      (.ok (), putState ledgerDeleted "a"
        ⟨"", "a", chunkA.hash, 0, 0⟩) ∧
    (ApplyPolicy (putState ledgerDeleted "a" ⟨"", "a", chunkA.hash, 0, 0⟩)
        0 "a" encANewline "signal_energy_policy_v1").1 ≠
      .error .IntegrityMismatch := by
  have h1 : base64DecodeJson encA = .ok chunkA := by rfl
  have h2 : base64DecodeJson encANewline = .ok chunkA := by rfl
  have hadd : AddChunk ledgerDeleted "a" encA =
      (.ok (), putState ledgerDeleted "a" ⟨"", "a", chunkA.hash, 0, 0⟩) := by
    rfl
  exact ⟨by decide, h1, h2, hadd,
    (hash_depends_on_decoded_value ledgerDeleted 0 "a" encA encANewline
      "signal_energy_policy_v1" chunkA h1 h2).2 _ hadd⟩

/-- The scan of `GetExpiredChunks` in closed form: it returns every
matching record — the `count == 30` break is dead code, since `count` is
re-declared as 0 on each loop iteration and can never reach 30. -/
theorem scanExpired_eq_filter (t : Int) :
    ∀ w : List (String × Asset),
      scanExpired t w =
        (w.filter (fun p =>
          decide (p.2.ExpiryDate ≠ 0) && decide (p.2.ExpiryDate < t))).map
          (fun p => p.2) := by
  intro w
  induction w with
  | nil => rfl
  | cons p rest ih =>
    simp only [scanExpired, List.filter_cons]
    by_cases hc : p.2.ExpiryDate ≠ 0 ∧ p.2.ExpiryDate < t
    · have hb : (decide (p.2.ExpiryDate ≠ 0) &&
          decide (p.2.ExpiryDate < t)) = true := by
        simp only [Bool.and_eq_true, decide_eq_true_eq]
        exact hc
      rw [if_pos hc, hb]
      simp [ih]
    · have hb : (decide (p.2.ExpiryDate ≠ 0) &&
          decide (p.2.ExpiryDate < t)) = false := by
        simp only [Bool.and_eq_false_iff, decide_eq_false_iff_not]
        tauto
      rw [if_neg hc, hb]
      simp [ih]

/-- C1: [claim C1] evaluation at the failing input: on a ledger of 31
records with `ExpiryDate` set and strictly before the cutoff (cutoff not in
the future), `GetExpiredChunks` returns all 31 assets — the claimed and
intended pagination cap of 30 never triggers, because `count` is declared
inside the scan loop and restarts at 0 on every iteration. -/
theorem get_expired_chunks_exceeds_cap :
    (GetExpiredChunks ledgerExpired31 100 100).map List.length = .ok 31 := by
  rfl

end HyperWatchdog
